import Mathlib

/-!
Shallow embedding of `grub-core/commands/efi/efivar.c` (the GRUB `efivar`
command) and verification of its specification claims.

Modelling conventions:
* C byte buffers are `List Nat` with every element `< 256`; sizes
  (`grub_size_t`) are `Nat`.
* C strings (`char *` arguments) are Lean `String` / `List Char`; `grub_strlen`
  is list length (command-line arguments cannot contain interior NUL bytes).
* Machine integers (`grub_uint8_t` … `grub_uint64_t`) are `Nat`; the C
  expressions never overflow their types (each assembled value is bounded by
  construction), so no explicit `% 2^w` is needed; shifts and ors are kept
  exactly as in the source (`<<<`, `|||`).
* Allocation (`grub_malloc`) is modelled as always succeeding: the pure
  functions return their result directly, and the only `NULL` results kept are
  the ones the C code produces for reasons other than allocation failure
  (e.g. `format_as_uint` on a too-short buffer).
* Out-parameters written through pointers (`grub_guid_t *guid` in
  `parse_guid`, the `out` buffer in `parse_hex_bytes`) are modelled by
  explicit state passing: the function takes the buffer's previous contents
  and returns its final contents, so partial writes before a failure are
  visible exactly as in C.
-/

namespace Efivar

/-- Embeds `hexval` (efivar.c lines 144-150): value of one hex digit, `-1` for
a non-hex character.  C `char` comparisons become `Char` code comparisons. -/
def hexval (c : Char) : Int :=
  if '0'.toNat ≤ c.toNat ∧ c.toNat ≤ '9'.toNat then
    (c.toNat : Int) - ('0'.toNat : Int)
  else if 'a'.toNat ≤ c.toNat ∧ c.toNat ≤ 'f'.toNat then
    (c.toNat : Int) - ('a'.toNat : Int) + 10
  else if 'A'.toNat ≤ c.toNat ∧ c.toNat ≤ 'F'.toNat then
    (c.toNat : Int) - ('A'.toNat : Int) + 10
  else -1

/-- Embeds the loop of `parse_hex_bytes` (efivar.c lines 152-164) including
its partial effect on the output buffer: returns `(success, bytes written)`.
The C loop checks both digits of pair `i` before writing `out[i]`, so on the
first bad pair the bytes written are exactly those of the preceding pairs.
Reading past the end of `s` (which the C version would do on a short string;
the callers pre-validate the length) yields the NUL character, which is not a
hex digit. -/
def parse_hex_bytes_run : List Char → Nat → Bool × List Nat
  | _, 0 => (true, [])
  | s, n + 1 =>
    let h := hexval (s.getD 0 (Char.ofNat 0))
    let l := hexval (s.getD 1 (Char.ofNat 0))
    if h < 0 ∨ l < 0 then (false, [])
    else
      let r := parse_hex_bytes_run (s.drop 2) n
      (r.1, ((h.toNat <<< 4) ||| l.toNat) :: r.2)

/-- Embeds `parse_hex_bytes` as used with a caller-local buffer: `some bytes`
when all `2*nbytes` characters are hex digits (C result `0`), otherwise
`none` (C result `-1`). -/
def parse_hex_bytes (s : List Char) (nbytes : Nat) : Option (List Nat) :=
  match parse_hex_bytes_run s nbytes with
  | (true, bs) => some bs
  | (false, _) => none

/-- Embeds `grub_guid_t` (and the identical local `simple_guid_t`,
efivar.c lines 37-42): `data1 : u32`, `data2 : u16`, `data3 : u16`,
`data4 : 8 bytes`. -/
structure GrubGuid where
  data1 : Nat
  data2 : Nat
  data3 : Nat
  data4 : List Nat
deriving DecidableEq, Repr

/-- Overwrite `src.length` bytes of `dst` starting at offset `off` (the
effect of `parse_hex_bytes` writing through a pointer into `guid->data4`).
Faithful when `off + src.length ≤ dst.length`, which holds at every use. -/
def writeBytes (dst : List Nat) (off : Nat) (src : List Nat) : List Nat :=
  dst.take off ++ src ++ dst.drop (off + src.length)

/-- Embeds `parse_guid` (efivar.c lines 166-199).  The C function takes
`grub_guid_t *guid` and returns `0`/`-1`; here it takes the previous contents
of that struct and returns `(success, final contents)`, making partial writes
before a failure observable.  The C `s == NULL` check is outside the model:
the only caller passes a present argument string. -/
def parse_guid (s : List Char) (guid : GrubGuid) : Bool × GrubGuid :=
  if s.length ≠ 36 ∨ s.getD 8 (Char.ofNat 0) ≠ '-' ∨ s.getD 13 (Char.ofNat 0) ≠ '-' ∨
     s.getD 18 (Char.ofNat 0) ≠ '-' ∨ s.getD 23 (Char.ofNat 0) ≠ '-' then
    (false, guid)
  else
    match parse_hex_bytes s 4 with
    | none => (false, guid)
    | some t1 =>
      let guid := { guid with
        data1 := (((t1.getD 0 0) <<< 24) ||| ((t1.getD 1 0) <<< 16)) |||
                 ((t1.getD 2 0) <<< 8) ||| (t1.getD 3 0) }
      match parse_hex_bytes (s.drop 9) 2 with
      | none => (false, guid)
      | some t2 =>
        let guid := { guid with data2 := ((t2.getD 0 0) <<< 8) ||| (t2.getD 1 0) }
        match parse_hex_bytes (s.drop 14) 2 with
        | none => (false, guid)
        | some t3 =>
          let guid := { guid with data3 := ((t3.getD 0 0) <<< 8) ||| (t3.getD 1 0) }
          let r4 := parse_hex_bytes_run (s.drop 19) 2
          let guid := { guid with data4 := writeBytes guid.data4 0 r4.2 }
          if r4.1 = false then (false, guid)
          else
            let r5 := parse_hex_bytes_run (s.drop 24) 6
            let guid := { guid with data4 := writeBytes guid.data4 2 r5.2 }
            if r5.1 = false then (false, guid)
            else (true, guid)

/-- Embeds the scanning/encoding loop shared by both passes of
`utf16le_to_utf8` (efivar.c lines 52-102) on the readable part of the buffer:
two bytes at a time as a little-endian 16-bit code unit
`c = data[i] | (data[i+1] << 8)`, stopping at the first zero unit or when
fewer than two bytes remain, emitting 1/2/3 UTF-8 bytes per unit exactly as
the C `if`-chain does.  The first (length-counting) pass and the trailing
NUL are allocation bookkeeping with no observable output. -/
def utf16le_to_utf8_go : List Nat → List Nat
  | b0 :: b1 :: rest =>
    let c := b0 ||| (b1 <<< 8)
    if c = 0 then []
    else
      (if c < 0x80 then [c]
       else if c < 0x800 then [0xc0 ||| (c >>> 6), 0x80 ||| (c &&& 0x3f)]
       else [0xe0 ||| (c >>> 12), 0x80 ||| ((c >>> 6) &&& 0x3f),
             0x80 ||| (c &&& 0x3f)]) ++ utf16le_to_utf8_go rest
  | _ => []

/-- Embeds `utf16le_to_utf8 (data, datasize)`: the loop index condition
`i + 1 < datasize` restricts reading to the first `datasize` bytes.
Allocation is modelled as succeeding, so the `NULL` return does not occur. -/
def utf16le_to_utf8 (data : List Nat) (datasize : Nat) : List Nat :=
  utf16le_to_utf8_go (data.take datasize)

/-- Embeds `output_format_t` (efivar.c lines 44-50). -/
inductive OutputFormat where
  | string
  | uint8
  | uint16
  | uint32
  | uint64
deriving DecidableEq, Repr

/-- The bytes of a Lean string, for stating what C text output contains. -/
def stringBytes (s : String) : List Nat := s.data.map Char.toNat

/-- Embeds `format_as_uint` (efivar.c lines 104-142): required size per
format, `NULL` (`none`) when `datasize < required_size` or for the
(unreachable) `FORMAT_STRING` default case, else the little-endian value of
the first `required_size` bytes rendered by `grub_snprintf "%llu"`
(`Nat.repr`; the value is below `2^64` so the 32-byte buffer never
truncates). -/
def format_as_uint (data : List Nat) (datasize : Nat) (format : OutputFormat) :
    Option (List Nat) :=
  let required_size : Option Nat :=
    match format with
    | .uint8 => some 1
    | .uint16 => some 2
    | .uint32 => some 4
    | .uint64 => some 8
    | .string => none
  match required_size with
  | none => none
  | some rs =>
    if datasize < rs then none
    else
      let value := (List.range rs).foldl
        (fun v i => v ||| ((data.getD i 0) <<< (i * 8))) 0
      some (stringBytes (Nat.repr value))

/-- Error outcomes of `grub_cmd_efivar`, one constructor per `grub_error`
call site: `missingArgument` covers the three `GRUB_ERR_BAD_ARGUMENT` sites
for absent required tokens (lines 222, 228 and 265, whose messages differ but
whose error code and meaning coincide), `invalidGuid` is the
`GRUB_ERR_BAD_ARGUMENT` site for malformed GUID text (line 275),
`outOfMemory` is the single `GRUB_ERR_OUT_OF_MEMORY` "failed to format
output" site (line 306), and `fetch e` forwards a nonzero error `e` from
`grub_efi_get_variable` verbatim (line 282). -/
inductive CmdErr where
  | missingArgument
  | invalidGuid
  | outOfMemory
  | fetch (e : Nat)
deriving DecidableEq, Repr

/-- The values of the locals `set_env`, `format`, `name`, `guid_str` after
the argument-parsing section of `grub_cmd_efivar` (lines 221-270). -/
structure ArgParse where
  set_env : Option String
  format : OutputFormat
  name : String
  guid_str : Option String
deriving DecidableEq, Repr

/-- Embeds the format-option, name and GUID sections of `grub_cmd_efivar`
(efivar.c lines 233-270), entered with `arg_idx = i0` after any `--set`
handling: an optional format flag consumes one token, the mandatory name
consumes one (else the "Missing variable name" error), and a remaining token
is kept as GUID text (further tokens are ignored). -/
def parseArgsTail (args : List String) (i0 : Nat) (set_env : Option String) :
    Except CmdErr ArgParse :=
  let fmtStep : OutputFormat × Nat :=
    if i0 < args.length then
      if args.getD i0 "" = "--string" then (.string, i0 + 1)
      else if args.getD i0 "" = "--uint8" then (.uint8, i0 + 1)
      else if args.getD i0 "" = "--uint16" then (.uint16, i0 + 1)
      else if args.getD i0 "" = "--uint32" then (.uint32, i0 + 1)
      else if args.getD i0 "" = "--uint64" then (.uint64, i0 + 1)
      else (.string, i0)
    else (.string, i0)
  let i1 := fmtStep.2
  if args.length ≤ i1 then .error .missingArgument
  else
    let name := args.getD i1 ""
    let guid_str : Option String :=
      if i1 + 1 < args.length then some (args.getD (i1 + 1) "") else none
    .ok ⟨set_env, fmtStep.1, name, guid_str⟩

/-- Embeds the argument-parsing section of `grub_cmd_efivar`
(efivar.c lines 221-270): the `argc < 1` usage check, then the `--set`
handling (consuming two tokens, `argc < 3` being the usage error), then
`parseArgsTail` from the reached index. -/
def parseArgs (args : List String) : Except CmdErr ArgParse :=
  if args.length < 1 then .error .missingArgument
  else if args.getD 0 "" = "--set" then
    if args.length < 3 then .error .missingArgument
    else parseArgsTail args 2 (some (args.getD 1 ""))
  else parseArgsTail args 0 none

/-- Embeds `GRUB_EFI_GLOBAL_VARIABLE_GUID` from `grub/efi/api.h` (the header
is outside this repository snapshot; the value is the EFI global-variable
namespace constant the command defaults to). -/
def GRUB_EFI_GLOBAL_VARIABLE_GUID : GrubGuid :=
  { data1 := 0x8be4df61, data2 := 0x93ca, data3 := 0x11d2,
    data4 := [0xaa, 0x0d, 0x00, 0xe0, 0x98, 0x03, 0x2b, 0x8c] }

/-- The outcome of one call into `grub_efi_get_variable`, treated as an
external collaborator: `err` is the returned `grub_err_t` (`0` =
`GRUB_ERR_NONE`), `data` is the returned pointer (`none` = `NULL`, `some bs`
= a buffer holding `bs`), `datasize` the returned size. -/
structure FetchResult where
  err : Nat
  data : Option (List Nat)
  datasize : Nat
deriving DecidableEq, Repr

instance {ε α : Type} [DecidableEq ε] [DecidableEq α] : DecidableEq (Except ε α) :=
  fun x y =>
  match x, y with
  | .ok a, .ok b =>
    if h : a = b then .isTrue (by rw [h]) else .isFalse (by simp [h])
  | .error a, .error b =>
    if h : a = b then .isTrue (by rw [h]) else .isFalse (by simp [h])
  | .ok _, .error _ => .isFalse (by simp)
  | .error _, .ok _ => .isFalse (by simp)

/-- Everything observable about one run of `grub_cmd_efivar`: the returned
`grub_err_t` (as `Except CmdErr Unit`), the byte strings printed via
`grub_printf`, the `grub_env_set` calls, whether and with what arguments
`grub_efi_get_variable` was called, how many times `grub_free` was applied
to the fetched blob and to the output string, and which formatter ran. -/
structure CmdOutcome where
  ret : Except CmdErr Unit
  printed : List (List Nat)
  envSets : List (String × List Nat)
  fetched : Bool
  fetchedName : Option String
  fetchedGuid : Option GrubGuid
  freedData : Nat
  freedOutput : Nat
  calledTranscoder : Bool
  calledExtractor : Bool
deriving DecidableEq, Repr

/-- Outcome before anything happened. -/
def emptyOutcome : CmdOutcome :=
  { ret := .ok (), printed := [], envSets := [], fetched := false,
    fetchedName := none, fetchedGuid := none, freedData := 0,
    freedOutput := 0, calledTranscoder := false, calledExtractor := false }

/-- Contents of the uninitialized stack local `guid_local` in
`grub_cmd_efivar`.  On a successful parse every field is overwritten, so the
command's behaviour does not depend on this value; on a failed parse the
local is never read. -/
def initGuidLocal : GrubGuid :=
  { data1 := 0, data2 := 0, data3 := 0, data4 := List.replicate 8 0 }

/-- Embeds the execution section of `grub_cmd_efivar` (efivar.c lines
279-321), entered after argument parsing and GUID resolution succeeded:
the fetch (whose behaviour is supplied as `fr`), the verbatim propagation of
a fetch error, the empty-blob early return (which prints a bare newline and,
as in the source, does NOT free `data`), formatting by the selected format,
the formatting-failure path (free `data`, return `GRUB_ERR_OUT_OF_MEMORY`),
and the `--set`/print sink followed by the final two frees. -/
def execPhase (ap : ArgParse) (guid : GrubGuid) (fr : FetchResult) : CmdOutcome :=
  let o1 := { emptyOutcome with
    fetched := true
    fetchedName := some ap.name
    fetchedGuid := some guid }
  if fr.err ≠ 0 then { o1 with ret := .error (.fetch fr.err) }
  else if fr.data = none ∨ fr.datasize = 0 then
    { o1 with printed := [stringBytes "\n"] }
  else
    let bytes := fr.data.getD []
    let output : Option (List Nat) :=
      if ap.format = .string then some (utf16le_to_utf8 bytes fr.datasize)
      else format_as_uint bytes fr.datasize ap.format
    let o2 := { o1 with
      calledTranscoder := decide (ap.format = OutputFormat.string)
      calledExtractor := decide (ap.format ≠ OutputFormat.string) }
    match output with
    | none => { o2 with freedData := 1, ret := .error .outOfMemory }
    | some out =>
      match ap.set_env with
      | some env =>
        { o2 with
          envSets := [(env, out)]
          freedData := 1
          freedOutput := 1 }
      | none =>
        { o2 with
          printed := [out ++ stringBytes "\n"]
          freedData := 1
          freedOutput := 1 }

/-- Embeds the GUID-resolution section of `grub_cmd_efivar` (efivar.c lines
268-277): the default constant when no GUID argument is present, otherwise
`parse_guid` into the uninitialized stack local `guid_local`, rejecting on
failure. -/
def resolveGuid (gstr : Option String) : Except CmdErr GrubGuid :=
  match gstr with
  | none => .ok GRUB_EFI_GLOBAL_VARIABLE_GUID
  | some gs =>
    match parse_guid gs.data initGuidLocal with
    | (true, g) => .ok g
    | (false, _) => .error .invalidGuid

/-- Embeds `grub_cmd_efivar` (efivar.c lines 201-322) for one invocation,
with the `grub_efi_get_variable` collaborator's behaviour supplied as
`fr`: argument parsing (`parseArgs`), GUID resolution (`resolveGuid`),
then `execPhase`. -/
def grub_cmd_efivar (args : List String) (fr : FetchResult) : CmdOutcome :=
  match parseArgs args with
  | .error e => { emptyOutcome with ret := .error e }
  | .ok ap =>
    match resolveGuid ap.guid_str with
    | .error e => { emptyOutcome with ret := .error e }
    | .ok guid => execPhase ap guid fr

/-! Spec-side definitions: these follow the specification's words, to be
compared with the definitions embedded from the source above. -/

/-- Spec-side reading of a run of hex digits as a big-endian number (the
spec's "assembled big-endian": each successive digit is a lower-order
nibble). -/
def hexBE (g : List Char) : Nat :=
  g.foldl (fun a c => a * 16 + (hexval c).toNat) 0

/-- Spec-side decoding of hex digit pairs to bytes "in textual order with no
byte-order transformation". -/
def hexPairBytes : List Char → List Nat
  | h :: l :: rest => ((hexval h).toNat * 16 + (hexval l).toNat) :: hexPairBytes rest
  | _ => []

/-- Spec-side well-formedness of GUID text: exactly 36 characters laid out as
`8hex-4hex-4hex-4hex-12hex`, dashes exactly at offsets 8, 13, 18 and 23. -/
def guidTextLayout (s : List Char) : Bool :=
  s.length = 36 &&
  (List.range 36).all fun i =>
    if i = 8 ∨ i = 13 ∨ i = 18 ∨ i = 23 then s.getD i (Char.ofNat 0) = '-'
    else decide (0 ≤ hexval (s.getD i (Char.ofNat 0)))

/-- Spec-side UTF-8 encoding rule for one 16-bit code unit `c`, written with
arithmetic (`/`, `%`, `+`) rather than the source's bit operations: 1 byte
below 0x80, 2 bytes below 0x800, otherwise 3 bytes (surrogate-range units
included). -/
def utf8EncodeSpec (c : Nat) : List Nat :=
  if c < 0x80 then [c]
  else if c < 0x800 then [0xc0 + c / 64, 0x80 + c % 64]
  else [0xe0 + c / 4096, 0x80 + (c / 64) % 64, 0x80 + c % 64]

/-- Spec-side scan: two bytes at a time as little-endian 16-bit code units
(`b0 + 256 * b1`), stopping at the first unit equal to 0 or when fewer than
2 bytes remain. -/
def utf16ScanSpec : List Nat → List Nat
  | b0 :: b1 :: rest =>
    let c := b0 + 256 * b1
    if c = 0 then [] else c :: utf16ScanSpec rest
  | _ => []

/-- Spec-side transcoder: scan the first `datasize` bytes into code units and
concatenate each unit's UTF-8 encoding. -/
def utf16le_to_utf8_spec (data : List Nat) (datasize : Nat) : List Nat :=
  (utf16ScanSpec (data.take datasize)).flatMap utf8EncodeSpec

/-- Spec-side request-interpreter grammar, steps 2 and 3 after any `--set`
prefix has been consumed: an optional format flag, then the mandatory
variable name, then optional GUID text. -/
def interpretTail (set_env : Option String) (toks : List String) :
    Except CmdErr ArgParse :=
  let fmtStep : OutputFormat × List String :=
    match toks with
    | t :: more =>
      if t = "--string" then (.string, more)
      else if t = "--uint8" then (.uint8, more)
      else if t = "--uint16" then (.uint16, more)
      else if t = "--uint32" then (.uint32, more)
      else if t = "--uint64" then (.uint64, more)
      else (.string, toks)
    | [] => (.string, toks)
  match fmtStep.2 with
  | [] => .error .missingArgument
  | nm :: rest => .ok ⟨set_env, fmtStep.1, nm, rest.head?⟩

/-- Spec-side request-interpreter grammar (spec section 4.5, steps 1-4),
positional over the token list: a leading `--set` consumes itself and the
next token as the store-sink name, failing when fewer than 2 tokens remain
after `--set`; then `interpretTail`. -/
def interpretSpec (args : List String) : Except CmdErr ArgParse :=
  match args with
  | a :: rest =>
    if a = "--set" then
      if rest.length < 2 then .error .missingArgument
      else
        match rest with
        | t :: more => interpretTail (some t) more
        | [] => .error .missingArgument
    else interpretTail none (a :: rest)
  | [] => interpretTail none []

/-- Modelled from the spec: the Hex Codec's rendering helper producing the
two lowercase hex digits of one byte value.  The rendering primitive
`render_hex` is described by the spec (section 4.2) as a retained standalone
primitive, but no such function exists in `src/grub-core/commands/efi/efivar.c`
(the source holds only the parsing direction, `hexval`/`parse_hex_bytes`),
so it is modelled from the spec's words. -/
def hexPair (b : Nat) : List Char :=
  [if b / 16 < 10 then Char.ofNat ('0'.toNat + b / 16)
   else Char.ofNat ('a'.toNat + (b / 16 - 10)),
   if b % 16 < 10 then Char.ofNat ('0'.toNat + b % 16)
   else Char.ofNat ('a'.toNat + (b % 16 - 10))]

/-- Modelled from the spec: `render_hex(bytes) -> text` emits each byte as
two lowercase hex digits, bytes separated by a single space, no trailing
separator, empty input yields empty text (spec section 4.2; the function is
absent from the source file, see `hexPair`). -/
def render_hex : List Nat → List Char
  | [] => []
  | [b] => hexPair b
  | b :: rest => hexPair b ++ ' ' :: render_hex rest


/-! Helper lemmas. -/

/-- Merging a left-shift with a small number is addition. -/
lemma shiftLeft_lor_eq_add (a b k : Nat) (hb : b < 2 ^ k) :
    (a <<< k) ||| b = a * 2 ^ k + b := by
  refine Nat.eq_of_testBit_eq fun i => ?_
  rw [Nat.testBit_lor, Nat.testBit_shiftLeft]
  rcases Nat.lt_or_ge i k with h | h
  · have h1 : ¬ k ≤ i := Nat.not_le.mpr h
    have hmod : (a * 2 ^ k + b) % 2 ^ k = b := by
      rw [Nat.mul_comm a (2 ^ k), Nat.mul_add_mod]
      exact Nat.mod_eq_of_lt hb
    have h2 := Nat.testBit_mod_two_pow (a * 2 ^ k + b) k i
    rw [hmod] at h2
    rw [h2]
    simp [h1, h]
  · have h1 : k ≤ i := h
    have hdiv : (a * 2 ^ k + b) / 2 ^ k = a := by
      rw [Nat.mul_comm a (2 ^ k), Nat.mul_add_div (Nat.pos_pow_of_pos k (by norm_num)),
        Nat.div_eq_of_lt hb, Nat.add_zero]
    have hb2 : b.testBit i = false :=
      Nat.testBit_eq_false_of_lt (lt_of_lt_of_le hb (Nat.pow_le_pow_right (by norm_num) h1))
    have h3 : (a * 2 ^ k + b).testBit i = a.testBit (i - k) := by
      have h4 : (a * 2 ^ k + b).testBit i = ((a * 2 ^ k + b) >>> k).testBit (i - k) := by
        rw [Nat.testBit_shiftRight]
        congr 1
        omega
      rw [h4, Nat.shiftRight_eq_div_pow, hdiv]
    rw [hb2, h3]
    simp [h1]

/-- Commuted form of `shiftLeft_lor_eq_add`. -/
lemma lor_shiftLeft_eq_add (a b k : Nat) (hb : b < 2 ^ k) :
    b ||| (a <<< k) = a * 2 ^ k + b := by
  rw [Nat.lor_comm]
  exact shiftLeft_lor_eq_add a b k hb

/-- Bitwise or of numbers occupying disjoint bit ranges is addition. -/
lemma lor_eq_add (x y k : Nat) (hx : x % 2 ^ k = 0) (hy : y < 2 ^ k) :
    x ||| y = x + y := by
  have hxx : x = (x / 2 ^ k) * 2 ^ k := by
    rw [Nat.div_mul_cancel (Nat.dvd_of_mod_eq_zero hx)]
  rw [hxx, ← Nat.shiftLeft_eq, shiftLeft_lor_eq_add _ _ _ hy, Nat.shiftLeft_eq]

/-- The hex-digit value is between -1 and 15. -/
lemma hexval_bounds (c : Char) : -1 ≤ hexval c ∧ hexval c < 16 := by
  have h0 : '0'.toNat = 48 := rfl
  have h9 : '9'.toNat = 57 := rfl
  have ha : 'a'.toNat = 97 := rfl
  have hf : 'f'.toNat = 102 := rfl
  have hA : 'A'.toNat = 65 := rfl
  have hF : 'F'.toNat = 70 := rfl
  unfold hexval
  rw [h0, h9, ha, hf, hA, hF]
  split_ifs <;> omega

/-- `getD` through `drop` reads at the shifted index. -/
lemma getD_drop_eq {α : Type} (l : List α) (n m : Nat) (d : α) :
    (l.drop n).getD m d = l.getD (n + m) d := by
  rw [List.getD_eq_getElem?_getD, List.getElem?_drop, ← List.getD_eq_getElem?_getD]

/-- `getD` past an initial segment reads from the right part. -/
lemma getD_append_right_len {α : Type} (g r : List α) (i : Nat) (d : α) :
    (g ++ r).getD (g.length + i) d = r.getD i d := by
  induction g with
  | nil => simp
  | cons a g ih => simpa [Nat.succ_add] using ih

/-- `drop` past an initial segment drops from the right part. -/
lemma drop_append_len {α : Type} (g r : List α) (i : Nat) :
    (g ++ r).drop (g.length + i) = r.drop i := by
  induction g with
  | nil => simp
  | cons a g ih =>
    rw [List.cons_append, List.length_cons, Nat.succ_add, List.drop_succ_cons]
    exact ih

/-- An in-range `getD` is the corresponding element. -/
lemma getD_of_lt {α : Type} (l : List α) (i : Nat) (d : α) (h : i < l.length) :
    l.getD i d = l[i] := by
  rw [List.getD_eq_getElem?_getD, List.getElem?_eq_getElem h]
  rfl

/-- In-range `getD` values are members. -/
lemma getD_mem_of_lt (data : List Nat) (i : Nat) (h : i < data.length) :
    data.getD i 0 ∈ data := by
  rw [getD_of_lt data i 0 h]
  exact List.getElem_mem h


/-- A hex-digit run of length `2 n` followed by anything parses successfully
to its pair bytes. -/
lemma parse_hex_bytes_run_ok (n : Nat) (g r : List Char) (hg : g.length = 2 * n)
    (hx : ∀ c ∈ g, 0 ≤ hexval c) :
    parse_hex_bytes_run (g ++ r) n = (true, hexPairBytes g) := by
  induction n generalizing g with
  | zero =>
    have hnil : g = [] := List.eq_nil_of_length_eq_zero (by omega)
    subst hnil
    simp [parse_hex_bytes_run, hexPairBytes]
  | succ n ih =>
    match g with
    | [] => simp at hg
    | [a] => simp at hg; omega
    | a :: b :: g2 =>
      have hxa : 0 ≤ hexval a := hx a (by simp)
      have hxb : 0 ≤ hexval b := hx b (by simp)
      have hba := (hexval_bounds a).2
      have hbb := (hexval_bounds b).2
      have hcond : ¬ (hexval a < 0 ∨ hexval b < 0) := by omega
      have hg2 : g2.length = 2 * n := by
        simp only [List.length_cons] at hg
        omega
      have hrec := ih g2 hg2 (fun c hc => hx c (by simp [hc]))
      simp only [List.cons_append, parse_hex_bytes_run, List.getD_cons_zero,
        List.getD_cons_succ, List.drop_succ_cons, List.drop_zero, hcond, if_false]
      rw [hrec]
      simp only [hexPairBytes]
      congr 2
      rw [shiftLeft_lor_eq_add _ _ 4 (by norm_num; omega)]
      norm_num

/-- If the parse loop reports success, every character it read is a hex
digit. -/
lemma parse_hex_bytes_run_hex (n : Nat) (s : List Char)
    (hok : (parse_hex_bytes_run s n).1 = true) :
    ∀ i, i < 2 * n → 0 ≤ hexval (s.getD i (Char.ofNat 0)) := by
  induction n generalizing s with
  | zero => intro i hi; omega
  | succ n ih =>
    intro i hi
    rw [parse_hex_bytes_run] at hok
    simp only [← List.getD_eq_getElem?_getD] at hok
    by_cases hc : hexval (s.getD 0 (Char.ofNat 0)) < 0 ∨ hexval (s.getD 1 (Char.ofNat 0)) < 0
    · rw [if_pos hc] at hok
      simp at hok
    · rw [if_neg hc] at hok
      push_neg at hc
      match i with
      | 0 => exact hc.1
      | 1 => exact hc.2
      | j + 2 =>
        have hok2 : (parse_hex_bytes_run (s.drop 2) n).1 = true := by
          simpa using hok
        have hj := ih (s.drop 2) hok2 j (by omega)
        rw [getD_drop_eq] at hj
        have h2j : 2 + j = j + 2 := by omega
        rwa [h2j] at hj

/-- Length of the decoded pair bytes. -/
lemma hexPairBytes_length : ∀ g : List Char, (hexPairBytes g).length = g.length / 2
  | [] => by simp [hexPairBytes]
  | [_] => by simp [hexPairBytes]
  | a :: b :: g => by
    simp only [hexPairBytes, List.length_cons, hexPairBytes_length g]
    omega

/-- Pair-byte decoding distributes over append when the first part has even
length. -/
lemma hexPairBytes_append : ∀ (g h : List Char), g.length % 2 = 0 →
    hexPairBytes (g ++ h) = hexPairBytes g ++ hexPairBytes h
  | [], _, _ => by simp [hexPairBytes]
  | [a], _, hg => by simp at hg
  | a :: b :: g, h, hg => by
    simp only [List.cons_append, hexPairBytes, List.length_cons, List.append_eq] at hg ⊢
    rw [hexPairBytes_append g h (by omega)]

/-- The C big-endian 32-bit assembly of the four pair bytes of an 8-digit hex
run equals the spec-side base-16 value of the run. -/
lemma be32_assembly (g : List Char) (hlen : g.length = 8)
    (hx : ∀ c ∈ g, 0 ≤ hexval c) :
    (((hexPairBytes g).getD 0 0 <<< 24 ||| (hexPairBytes g).getD 1 0 <<< 16) |||
      (hexPairBytes g).getD 2 0 <<< 8) ||| (hexPairBytes g).getD 3 0 = hexBE g := by
  rcases g with _ | ⟨a0, _ | ⟨a1, _ | ⟨a2, _ | ⟨a3, _ | ⟨a4, _ | ⟨a5, _ | ⟨a6, _ |
    ⟨a7, _ | ⟨a8, g⟩⟩⟩⟩⟩⟩⟩⟩⟩
  all_goals try (exfalso; simp only [List.length_cons, List.length_nil] at hlen; omega)
  have q0 := hexval_bounds a0; have q1 := hexval_bounds a1
  have q2 := hexval_bounds a2; have q3 := hexval_bounds a3
  have q4 := hexval_bounds a4; have q5 := hexval_bounds a5
  have q6 := hexval_bounds a6; have q7 := hexval_bounds a7
  simp only [hexPairBytes, List.getD_cons_zero, List.getD_cons_succ]
  rw [Nat.lor_assoc, Nat.lor_assoc]
  rw [shiftLeft_lor_eq_add ((hexval a4).toNat * 16 + (hexval a5).toNat)
      ((hexval a6).toNat * 16 + (hexval a7).toNat) 8 (by norm_num; omega)]
  rw [shiftLeft_lor_eq_add ((hexval a2).toNat * 16 + (hexval a3).toNat) _ 16
      (by norm_num; omega)]
  rw [shiftLeft_lor_eq_add ((hexval a0).toNat * 16 + (hexval a1).toNat) _ 24
      (by norm_num; omega)]
  simp only [hexBE, List.foldl_cons, List.foldl_nil]
  norm_num
  omega

/-- The C big-endian 16-bit assembly of the two pair bytes of a 4-digit hex
run equals the spec-side base-16 value of the run. -/
lemma be16_assembly (g : List Char) (hlen : g.length = 4)
    (hx : ∀ c ∈ g, 0 ≤ hexval c) :
    (hexPairBytes g).getD 0 0 <<< 8 ||| (hexPairBytes g).getD 1 0 = hexBE g := by
  rcases g with _ | ⟨a0, _ | ⟨a1, _ | ⟨a2, _ | ⟨a3, _ | ⟨a4, g⟩⟩⟩⟩⟩
  all_goals try (exfalso; simp only [List.length_cons, List.length_nil] at hlen; omega)
  have q0 := hexval_bounds a0; have q1 := hexval_bounds a1
  have q2 := hexval_bounds a2; have q3 := hexval_bounds a3
  simp only [hexPairBytes, List.getD_cons_zero, List.getD_cons_succ]
  rw [shiftLeft_lor_eq_add ((hexval a0).toNat * 16 + (hexval a1).toNat)
      ((hexval a2).toNat * 16 + (hexval a3).toNat) 8 (by norm_num; omega)]
  simp only [hexBE, List.foldl_cons, List.foldl_nil]
  norm_num
  omega

/-- Reading a dash-joined concatenation at the dash offset. -/
lemma getD_concat_dash (g r : List Char) (i : Nat) (d : Char) (h : i = g.length) :
    (g ++ ('-' :: r)).getD i d = '-' := by
  subst h
  have h0 : g.length = g.length + 0 := by omega
  rw [h0, getD_append_right_len]
  rfl

/-- Reading a dash-joined concatenation beyond the dash. -/
lemma getD_concat_past (g r : List Char) (i j : Nat) (d : Char)
    (h : i = g.length + 1 + j) :
    (g ++ ('-' :: r)).getD i d = r.getD j d := by
  subst h
  have h0 : g.length + 1 + j = g.length + (j + 1) := by omega
  rw [h0, getD_append_right_len, List.getD_cons_succ]

/-- Dropping a dash-joined concatenation beyond the dash. -/
lemma drop_concat_past (g r : List Char) (i j : Nat) (h : i = g.length + 1 + j) :
    (g ++ ('-' :: r)).drop i = r.drop j := by
  subst h
  have h0 : g.length + 1 + j = g.length + (j + 1) := by omega
  rw [h0, drop_append_len, List.drop_succ_cons]

/-- Writing at offset 0 overwrites a prefix. -/
lemma writeBytes_zero (d s : List Nat) : writeBytes d 0 s = s ++ d.drop s.length := by
  simp [writeBytes]

/-- Writing the whole tail after a kept prefix. -/
lemma writeBytes_exact (w t s : List Nat) (k : Nat) (hk : w.length = k)
    (h : t.length = s.length) :
    writeBytes (w ++ t) k s = w ++ s := by
  subst hk
  unfold writeBytes
  rw [List.take_left, List.drop_eq_nil_of_le (by simp [h]), List.append_nil]


/-- The C bit-operation UTF-8 encoding of one code unit below 2^16 equals the
spec-side arithmetic form. -/
lemma utf8Encode_eq (c : Nat) (hc : c < 65536) :
    (if c < 0x80 then [c]
     else if c < 0x800 then [0xc0 ||| (c >>> 6), 0x80 ||| (c &&& 0x3f)]
     else [0xe0 ||| (c >>> 12), 0x80 ||| ((c >>> 6) &&& 0x3f),
           0x80 ||| (c &&& 0x3f)]) = utf8EncodeSpec c := by
  have hmod : c &&& 0x3f = c % 64 := by
    have h := Nat.and_pow_two_sub_one_eq_mod c 6
    norm_num at h
    exact h
  have hdiv6 : c >>> 6 = c / 64 := by
    rw [Nat.shiftRight_eq_div_pow]
  have hdiv12 : c >>> 12 = c / 4096 := by
    rw [Nat.shiftRight_eq_div_pow]
  have hmod2 : (c >>> 6) &&& 0x3f = (c / 64) % 64 := by
    rw [hdiv6]
    have h := Nat.and_pow_two_sub_one_eq_mod (c / 64) 6
    norm_num at h
    exact h
  unfold utf8EncodeSpec
  split_ifs with hlt1 hlt2
  · rfl
  · rw [hdiv6, hmod]
    rw [lor_eq_add 0xc0 (c / 64) 6 (by norm_num) (by omega)]
    rw [lor_eq_add 0x80 (c % 64) 7 (by norm_num) (by omega)]
  · rw [hdiv12, hmod2, hmod]
    rw [lor_eq_add 0xe0 (c / 4096) 5 (by norm_num) (by omega)]
    rw [lor_eq_add 0x80 ((c / 64) % 64) 7 (by norm_num) (by omega)]
    rw [lor_eq_add 0x80 (c % 64) 7 (by norm_num) (by omega)]

/-- The transcoding loop equals the spec-side scan-and-encode on byte
input. -/
lemma utf16le_go_eq_spec : ∀ (l : List Nat), (∀ b ∈ l, b < 256) →
    utf16le_to_utf8_go l = (utf16ScanSpec l).flatMap utf8EncodeSpec
  | [], _ => rfl
  | [b], _ => rfl
  | b0 :: b1 :: rest, hb => by
    have hb0 : b0 < 256 := hb b0 (by simp)
    have hb1 : b1 < 256 := hb b1 (by simp)
    have hcval : b0 ||| (b1 <<< 8) = b0 + 256 * b1 := by
      have h := lor_shiftLeft_eq_add b1 b0 8 (by norm_num; omega)
      rw [h]
      norm_num
      omega
    rw [utf16le_to_utf8_go, utf16ScanSpec]
    simp only [hcval]
    by_cases hz : b0 + 256 * b1 = 0
    · simp [hz]
    · rw [if_neg hz, if_neg hz, List.flatMap_cons]
      rw [utf16le_go_eq_spec rest (fun b hbm => hb b (by simp [hbm]))]
      rw [utf8Encode_eq (b0 + 256 * b1) (by omega)]

/-- The little-endian sum of byte values is bounded. -/
lemma le_sum_lt (data : List Nat) :
    ∀ rs : Nat, (∀ i, i < rs → data.getD i 0 < 256) →
      (∑ i in Finset.range rs, data.getD i 0 * 2 ^ (8 * i)) < 2 ^ (8 * rs) := by
  intro rs
  induction rs with
  | zero => intro _; simp
  | succ rs ih =>
    intro hb
    rw [Finset.sum_range_succ]
    have hS := ih (fun i hi => hb i (by omega))
    have hd : data.getD rs 0 ≤ 255 := by have := hb rs (by omega); omega
    have hdP : data.getD rs 0 * 2 ^ (8 * rs) ≤ 255 * 2 ^ (8 * rs) :=
      Nat.mul_le_mul_right _ hd
    have hpow : 2 ^ (8 * (rs + 1)) = 2 ^ (8 * rs) * 256 := by
      rw [show 8 * (rs + 1) = 8 * rs + 8 by ring, pow_add]
      norm_num
    rw [hpow]
    linarith

/-- The C or-accumulation loop of `format_as_uint` computes the spec-side
little-endian sum. -/
lemma fold_lor_eq_sum (data : List Nat) :
    ∀ rs : Nat, (∀ i, i < rs → data.getD i 0 < 256) →
      (List.range rs).foldl (fun v i => v ||| ((data.getD i 0) <<< (i * 8))) 0 =
      ∑ i in Finset.range rs, data.getD i 0 * 2 ^ (8 * i) := by
  intro rs
  induction rs with
  | zero => intro _; simp
  | succ rs ih =>
    intro hb
    rw [List.range_succ, List.foldl_append, List.foldl_cons, List.foldl_nil]
    rw [ih (fun i hi => hb i (by omega))]
    rw [lor_shiftLeft_eq_add (data.getD rs 0)
      (∑ i in Finset.range rs, data.getD i 0 * 2 ^ (8 * i)) (rs * 8)
      (by rw [Nat.mul_comm rs 8]; exact le_sum_lt data rs (fun i hi => hb i (by omega)))]
    rw [Finset.sum_range_succ, Nat.mul_comm rs 8]
    omega

/-- `getD`-form of dropping at an in-range index. -/
lemma drop_cons_getD {α : Type} (l : List α) (j : Nat) (d : α) (h : j < l.length) :
    l.drop j = l.getD j d :: l.drop (j + 1) := by
  rw [getD_of_lt l j d h]
  exact List.drop_eq_getElem_cons h

/-- The optional trailing GUID token, read by index, is the head of the
remaining tokens. -/
lemma head_drop_eq (args : List String) (j : Nat) :
    (if j < args.length then some (args.getD j "") else none) = (args.drop j).head? := by
  by_cases h : j < args.length
  · rw [if_pos h, drop_cons_getD args j "" h]
    rfl
  · rw [if_neg h, List.drop_eq_nil_of_le (by omega)]
    rfl

/-- The name-and-GUID tail of the C index walk matches the spec-side match on
the remaining tokens. -/
lemma parseArgsName (args : List String) (i1 : Nat) (s_env : Option String)
    (fmt : OutputFormat) :
    (if args.length ≤ i1 then (Except.error CmdErr.missingArgument : Except CmdErr ArgParse)
     else Except.ok ⟨s_env, fmt, args.getD i1 "",
       if i1 + 1 < args.length then some (args.getD (i1 + 1) "") else none⟩) =
    (match args.drop i1 with
     | [] => Except.error CmdErr.missingArgument
     | nm :: rest => Except.ok ⟨s_env, fmt, nm, rest.head?⟩) := by
  by_cases hle : args.length ≤ i1
  · rw [if_pos hle, List.drop_eq_nil_of_le hle]
  · push_neg at hle
    rw [if_neg (by omega), drop_cons_getD args i1 "" hle]
    rw [head_drop_eq args (i1 + 1)]

/-- The C index-based format/name/GUID walk from index `i0` equals the
spec-side grammar on the remaining tokens. -/
lemma parseArgsTail_eq (args : List String) (i0 : Nat) (s_env : Option String) :
    parseArgsTail args i0 s_env = interpretTail s_env (args.drop i0) := by
  by_cases hi : i0 < args.length
  · have hdc := drop_cons_getD args i0 "" hi
    unfold parseArgsTail interpretTail
    rw [hdc]
    by_cases h1 : args.getD i0 "" = "--string"
    · simp only [hi, h1, if_true]
      exact parseArgsName args (i0 + 1) s_env .string
    by_cases h2 : args.getD i0 "" = "--uint8"
    · simp only [hi, h1, h2, if_true, if_false]
      exact parseArgsName args (i0 + 1) s_env .uint8
    by_cases h3 : args.getD i0 "" = "--uint16"
    · simp only [hi, h1, h2, h3, if_true, if_false]
      exact parseArgsName args (i0 + 1) s_env .uint16
    by_cases h4 : args.getD i0 "" = "--uint32"
    · simp only [hi, h1, h2, h3, h4, if_true, if_false]
      exact parseArgsName args (i0 + 1) s_env .uint32
    by_cases h5 : args.getD i0 "" = "--uint64"
    · simp only [hi, h1, h2, h3, h4, h5, if_true, if_false]
      exact parseArgsName args (i0 + 1) s_env .uint64
    · simp only [hi, h1, h2, h3, h4, h5, if_true, if_false]
      rw [if_neg (by omega)]
      rw [head_drop_eq args (i0 + 1)]
  · push_neg at hi
    unfold parseArgsTail interpretTail
    rw [List.drop_eq_nil_of_le hi]
    simp [hi, Nat.not_lt.mpr hi]

/-- The C argument walk equals the spec-side grammar. -/
theorem parseArgs_eq_interpretSpec_pre (args : List String) :
    parseArgs args = interpretSpec args := by
  cases args with
  | nil => rfl
  | cons a rest =>
    unfold parseArgs interpretSpec
    rw [if_neg (by simp)]
    simp only [List.getD_cons_zero]
    by_cases hset : a = "--set"
    · rw [if_pos hset, if_pos hset]
      by_cases hlen : rest.length < 2
      · rw [if_pos (by simp; omega), if_pos hlen]
      · rw [if_neg (by simp; omega), if_neg hlen]
        rcases rest with _ | ⟨t, more⟩
        · simp at hlen
        · rw [parseArgsTail_eq]
          simp

    · rw [if_neg hset, if_neg hset]
      rw [parseArgsTail_eq]
      simp

/-- A run that called the fetch collaborator got past parsing and GUID
resolution, and its outcome is the execution phase's. -/
lemma fetched_imp (args : List String) (fr : FetchResult)
    (hfetch : (grub_cmd_efivar args fr).fetched = true) :
    ∃ ap guid, parseArgs args = Except.ok ap ∧
      resolveGuid ap.guid_str = Except.ok guid ∧
      grub_cmd_efivar args fr = execPhase ap guid fr := by
  have heq : grub_cmd_efivar args fr =
      match parseArgs args with
      | .error e => { emptyOutcome with ret := .error e }
      | .ok ap =>
        match resolveGuid ap.guid_str with
        | .error e => { emptyOutcome with ret := .error e }
        | .ok guid => execPhase ap guid fr := rfl
  rcases hap : parseArgs args with e | ap
  · rw [hap] at heq
    simp only [show (∀ x : CmdOutcome, x = x) from fun _ => rfl] at heq
    rw [heq] at hfetch
    simp [emptyOutcome] at hfetch
  · rw [hap] at heq
    simp only [show (∀ x : CmdOutcome, x = x) from fun _ => rfl] at heq
    rcases hg : resolveGuid ap.guid_str with e2 | guid
    · rw [hg] at heq
      simp only [show (∀ x : CmdOutcome, x = x) from fun _ => rfl] at heq
      rw [heq] at hfetch
      simp [emptyOutcome] at hfetch
    · rw [hg] at heq
      simp only [show (∀ x : CmdOutcome, x = x) from fun _ => rfl] at heq
      exact ⟨ap, guid, rfl, hg, heq⟩

/-- On a successful fetch reporting a null pointer or zero size, the
execution phase prints one empty line, succeeds, and runs no formatter. -/
lemma execPhase_empty (ap : ArgParse) (guid : GrubGuid) (fr : FetchResult)
    (herr : fr.err = 0) (hempty : fr.data = none ∨ fr.datasize = 0) :
    execPhase ap guid fr =
      { emptyOutcome with
        fetched := true
        fetchedName := some ap.name
        fetchedGuid := some guid
        printed := [stringBytes "\n"] } := by
  unfold execPhase
  rw [if_neg (by simp [herr]), if_pos hempty]

/-- Inversion for a successful hex parse. -/
lemma parse_hex_bytes_isSome (s : List Char) (n : Nat) (bs : List Nat)
    (h : parse_hex_bytes s n = some bs) : (parse_hex_bytes_run s n).1 = true := by
  unfold parse_hex_bytes at h
  rcases hr : parse_hex_bytes_run s n with ⟨b, l⟩
  rw [hr] at h
  cases b
  · simp at h
  · rfl

/-- A successful `parse_guid` certifies the layout predicate: length 36,
dashes at 8/13/18/23, hex digits everywhere else. -/
lemma parse_guid_true_layout (s : List Char) (g : GrubGuid)
    (h : (parse_guid s g).1 = true) : guidTextLayout s = true := by
  unfold parse_guid at h
  by_cases hcond : (s.length ≠ 36 ∨ s.getD 8 (Char.ofNat 0) ≠ '-' ∨
      s.getD 13 (Char.ofNat 0) ≠ '-' ∨ s.getD 18 (Char.ofNat 0) ≠ '-' ∨
      s.getD 23 (Char.ofNat 0) ≠ '-')
  · rw [if_pos hcond] at h
    simp at h
  · rw [if_neg hcond] at h
    push_neg at hcond
    obtain ⟨hlen, d8, d13, d18, d23⟩ := hcond
    rcases hp1 : parse_hex_bytes s 4 with _ | t1 <;> rw [hp1] at h
    · simp at h
    rcases hp2 : parse_hex_bytes (s.drop 9) 2 with _ | t2 <;> rw [hp2] at h
    · simp at h
    rcases hp3 : parse_hex_bytes (s.drop 14) 2 with _ | t3 <;> rw [hp3] at h
    · simp at h
    simp only [show ∀ x : GrubGuid, x = x from fun _ => rfl] at h
    split at h
    · simp at h
    rename_i hr4
    split at h
    · simp at h
    rename_i hr5
    have hx1 := parse_hex_bytes_run_hex 4 s (parse_hex_bytes_isSome s 4 t1 hp1)
    have hx2 := parse_hex_bytes_run_hex 2 (s.drop 9) (parse_hex_bytes_isSome _ 2 t2 hp2)
    have hx3 := parse_hex_bytes_run_hex 2 (s.drop 14) (parse_hex_bytes_isSome _ 2 t3 hp3)
    have hx4 := parse_hex_bytes_run_hex 2 (s.drop 19) (by simpa using hr4)
    have hx5 := parse_hex_bytes_run_hex 6 (s.drop 24) (by simpa using hr5)
    clear h
    unfold guidTextLayout
    rw [Bool.and_eq_true]
    constructor
    · simp [hlen]
    · rw [List.all_eq_true]
      intro i hi
      have hi36 : i < 36 := List.mem_range.mp hi
      by_cases hdash : i = 8 ∨ i = 13 ∨ i = 18 ∨ i = 23
      · rw [if_pos hdash]
        rcases hdash with rfl | rfl | rfl | rfl
        · exact decide_eq_true d8
        · exact decide_eq_true d13
        · exact decide_eq_true d18
        · exact decide_eq_true d23
      · rw [if_neg hdash]
        simp only [decide_eq_true_eq]
        push_neg at hdash
        rcases (show i < 8 ∨ (9 ≤ i ∧ i ≤ 12) ∨ (14 ≤ i ∧ i ≤ 17) ∨ (19 ≤ i ∧ i ≤ 22) ∨
            (24 ≤ i ∧ i ≤ 35) from by omega) with hq | hq | hq | hq | hq
        · exact hx1 i (by omega)
        · have hh := hx2 (i - 9) (by omega)
          rw [getD_drop_eq] at hh
          rwa [show 9 + (i - 9) = i from by omega] at hh
        · have hh := hx3 (i - 14) (by omega)
          rw [getD_drop_eq] at hh
          rwa [show 14 + (i - 14) = i from by omega] at hh
        · have hh := hx4 (i - 19) (by omega)
          rw [getD_drop_eq] at hh
          rwa [show 19 + (i - 19) = i from by omega] at hh
        · have hh := hx5 (i - 24) (by omega)
          rw [getD_drop_eq] at hh
          rwa [show 24 + (i - 24) = i from by omega] at hh

/-- On ill-laid-out text `parse_guid` reports failure. -/
lemma parse_guid_fail (s : List Char) (g : GrubGuid)
    (h : guidTextLayout s = false) : (parse_guid s g).1 = false := by
  rcases hr : (parse_guid s g).1 with _ | _
  · rfl
  · rw [parse_guid_true_layout s g hr] at h
    simp at h

/-- The GUID-resolution step rejects ill-laid-out GUID text. -/
lemma resolveGuid_invalid (gs : String) (h : guidTextLayout gs.data = false) :
    resolveGuid (some gs) = Except.error CmdErr.invalidGuid := by
  unfold resolveGuid
  rcases hpg : parse_guid gs.data initGuidLocal with ⟨b, gv⟩
  have hb : b = false := by
    have := parse_guid_fail gs.data initGuidLocal h
    rw [hpg] at this
    exact this
  subst hb
  simp [hpg]

/-- Formatting as an integer fails on a blob shorter than the format
width. -/
lemma format_as_uint_short (data : List Nat) (datasize : Nat)
    (format : OutputFormat) (rs : Nat)
    (hf : (format = OutputFormat.uint8 ∧ rs = 1) ∨ (format = OutputFormat.uint16 ∧ rs = 2) ∨
          (format = OutputFormat.uint32 ∧ rs = 4) ∨ (format = OutputFormat.uint64 ∧ rs = 8))
    (hlt : datasize < rs) :
    format_as_uint data datasize format = none := by
  rcases hf with ⟨hf, hrs⟩ | ⟨hf, hrs⟩ | ⟨hf, hrs⟩ | ⟨hf, hrs⟩ <;> subst hf <;> subst hrs <;>
    (simp only [format_as_uint]
     rw [if_pos (by omega)])

/-- On a successful fetch of a short non-empty blob with an integer format,
the execution phase frees the blob once and fails with the out-of-memory
error kind. -/
lemma execPhase_too_short (ap : ArgParse) (guid : GrubGuid) (fr : FetchResult)
    (rs : Nat)
    (hf : (ap.format = OutputFormat.uint8 ∧ rs = 1) ∨ (ap.format = OutputFormat.uint16 ∧ rs = 2) ∨
          (ap.format = OutputFormat.uint32 ∧ rs = 4) ∨ (ap.format = OutputFormat.uint64 ∧ rs = 8))
    (herr : fr.err = 0) (hdata : fr.data ≠ none) (hsize : fr.datasize ≠ 0)
    (hlt : fr.datasize < rs) :
    execPhase ap guid fr =
      { emptyOutcome with
        fetched := true
        fetchedName := some ap.name
        fetchedGuid := some guid
        calledExtractor := true
        freedData := 1
        ret := .error .outOfMemory } := by
  have hns : ap.format ≠ OutputFormat.string := by
    rcases hf with ⟨hf, _⟩ | ⟨hf, _⟩ | ⟨hf, _⟩ | ⟨hf, _⟩ <;> simp [hf]
  unfold execPhase
  rw [if_neg (by simp [herr]), if_neg (by simp [hdata, hsize])]
  simp only [if_neg hns,
    format_as_uint_short (fr.data.getD []) fr.datasize ap.format rs hf hlt]
  simp [hns, emptyOutcome]


/-- A parsed request whose GUID text is ill-laid-out makes the whole command
fail with the invalid-GUID error, with no other observable effect. -/
lemma cmd_invalidGuid (args : List String) (fr : FetchResult) (ap : ArgParse)
    (gs : String) (hap : parseArgs args = Except.ok ap) (hg : ap.guid_str = some gs)
    (hbad : guidTextLayout gs.data = false) :
    grub_cmd_efivar args fr = { emptyOutcome with ret := Except.error CmdErr.invalidGuid } := by
  have heq : grub_cmd_efivar args fr =
      match parseArgs args with
      | .error e => { emptyOutcome with ret := .error e }
      | .ok ap =>
        match resolveGuid ap.guid_str with
        | .error e => { emptyOutcome with ret := .error e }
        | .ok guid => execPhase ap guid fr := rfl
  rw [hap] at heq
  simp only [show (∀ x : CmdOutcome, x = x) from fun _ => rfl] at heq
  rw [hg, resolveGuid_invalid gs hbad] at heq
  simpa using heq

/-! Claim theorems. -/

/-- Claim C1: every 36-character string laid out as
`8hex-4hex-4hex-4hex-12hex` (dashes exactly at offsets 8, 13, 18 and 23)
makes `parse_guid` succeed; `data1` is the first 8 hex digits assembled
big-endian into a 32-bit value (`hexBE`), `data2` and `data3` are the next
two 4-digit groups assembled big-endian into 16-bit values, and `data4` is
the final 4-digit and 12-digit groups decoded to 2+6 bytes concatenated in
textual order with no byte-order transformation (`hexPairBytes`). -/
theorem parse_guid_wellformed (g1 g2 g3 g4 g5 : List Char) (init : GrubGuid)
    (h1 : g1.length = 8) (h2 : g2.length = 4) (h3 : g3.length = 4)
    (h4 : g4.length = 4) (h5 : g5.length = 12)
    (hx1 : ∀ c ∈ g1, 0 ≤ hexval c) (hx2 : ∀ c ∈ g2, 0 ≤ hexval c)
    (hx3 : ∀ c ∈ g3, 0 ≤ hexval c) (hx4 : ∀ c ∈ g4, 0 ≤ hexval c)
    (hx5 : ∀ c ∈ g5, 0 ≤ hexval c)
    (hinit : init.data4.length = 8) :
    parse_guid (g1 ++ ('-' :: (g2 ++ ('-' :: (g3 ++ ('-' :: (g4 ++ ('-' :: g5)))))))) init =
      (true, { data1 := hexBE g1, data2 := hexBE g2, data3 := hexBE g3,
               data4 := hexPairBytes (g4 ++ g5) }) := by
  have hb4len : (hexPairBytes g4).length = 2 := by rw [hexPairBytes_length, h4]
  have hb5len : (hexPairBytes g5).length = 6 := by rw [hexPairBytes_length, h5]
  set R3 := g4 ++ ('-' :: g5) with hR3def
  set R2 := g3 ++ ('-' :: R3) with hR2def
  set R1 := g2 ++ ('-' :: R2) with hR1def
  set s := g1 ++ ('-' :: R1) with hsdef
  have hR3len : R3.length = 17 := by
    rw [hR3def]; simp [h4, h5]
  have hR2len : R2.length = 22 := by
    rw [hR2def]; simp [h3, hR3len]
  have hR1len : R1.length = 27 := by
    rw [hR1def]; simp [h2, hR2len]
  have hslen : s.length = 36 := by
    rw [hsdef]; simp [h1, hR1len]
  have d8 : s.getD 8 (Char.ofNat 0) = '-' := by
    rw [hsdef]; exact getD_concat_dash g1 _ 8 _ (by omega)
  have d13 : s.getD 13 (Char.ofNat 0) = '-' := by
    rw [hsdef, getD_concat_past g1 R1 13 4 _ (by omega), hR1def]
    exact getD_concat_dash g2 _ 4 _ (by omega)
  have d18 : s.getD 18 (Char.ofNat 0) = '-' := by
    rw [hsdef, getD_concat_past g1 R1 18 9 _ (by omega), hR1def,
      getD_concat_past g2 R2 9 4 _ (by omega), hR2def]
    exact getD_concat_dash g3 _ 4 _ (by omega)
  have d23 : s.getD 23 (Char.ofNat 0) = '-' := by
    rw [hsdef, getD_concat_past g1 R1 23 14 _ (by omega), hR1def,
      getD_concat_past g2 R2 14 9 _ (by omega), hR2def,
      getD_concat_past g3 R3 9 4 _ (by omega), hR3def]
    exact getD_concat_dash g4 _ 4 _ (by omega)
  have dr9 : s.drop 9 = R1 := by
    rw [hsdef, drop_concat_past g1 R1 9 0 (by omega)]
    exact List.drop_zero R1
  have dr14 : s.drop 14 = R2 := by
    rw [hsdef, drop_concat_past g1 R1 14 5 (by omega), hR1def,
      drop_concat_past g2 R2 5 0 (by omega)]
    exact List.drop_zero R2
  have dr19 : s.drop 19 = R3 := by
    rw [hsdef, drop_concat_past g1 R1 19 10 (by omega), hR1def,
      drop_concat_past g2 R2 10 5 (by omega), hR2def,
      drop_concat_past g3 R3 5 0 (by omega)]
    exact List.drop_zero R3
  have dr24 : s.drop 24 = g5 := by
    rw [hsdef, drop_concat_past g1 R1 24 15 (by omega), hR1def,
      drop_concat_past g2 R2 15 10 (by omega), hR2def,
      drop_concat_past g3 R3 10 5 (by omega), hR3def,
      drop_concat_past g4 g5 5 0 (by omega)]
    exact List.drop_zero g5
  have p1 : parse_hex_bytes s 4 = some (hexPairBytes g1) := by
    rw [hsdef]
    unfold parse_hex_bytes
    rw [parse_hex_bytes_run_ok 4 g1 _ (by omega) hx1]
  have p2 : parse_hex_bytes (s.drop 9) 2 = some (hexPairBytes g2) := by
    rw [dr9, hR1def]
    unfold parse_hex_bytes
    rw [parse_hex_bytes_run_ok 2 g2 _ (by omega) hx2]
  have p3 : parse_hex_bytes (s.drop 14) 2 = some (hexPairBytes g3) := by
    rw [dr14, hR2def]
    unfold parse_hex_bytes
    rw [parse_hex_bytes_run_ok 2 g3 _ (by omega) hx3]
  have r4 : parse_hex_bytes_run (s.drop 19) 2 = (true, hexPairBytes g4) := by
    rw [dr19, hR3def]
    exact parse_hex_bytes_run_ok 2 g4 _ (by omega) hx4
  have r5 : parse_hex_bytes_run (s.drop 24) 6 = (true, hexPairBytes g5) := by
    rw [dr24]
    conv_lhs => rw [← List.append_nil g5]
    exact parse_hex_bytes_run_ok 6 g5 [] (by omega) hx5
  unfold parse_guid
  rw [if_neg (by push_neg; exact ⟨hslen, d8, d13, d18, d23⟩)]
  simp only [p1, p2, p3, r4, r5]
  rw [be32_assembly g1 h1 hx1, be16_assembly g2 h2 hx2, be16_assembly g3 h3 hx3]
  rw [writeBytes_zero init.data4 (hexPairBytes g4), hb4len]
  rw [writeBytes_exact (hexPairBytes g4) (init.data4.drop 2) (hexPairBytes g5) 2 hb4len
    (by rw [List.length_drop, hinit, hb5len])]
  rw [hexPairBytes_append g4 g5 (by omega)]
  simp

/-- Witness for C1: the specification's concrete vector
`"8BE4DF61-93CA-11D2-AA0D-00E098032B8C"` parses to
`data1 = 0x8BE4DF61`, `data2 = 0x93CA`, `data3 = 0x11D2`,
`data4 = AA 0D 00 E0 98 03 2B 8C`. -/
theorem parse_guid_wellformed_witness :
    parse_guid ("8BE4DF61-93CA-11D2-AA0D-00E098032B8C".data) initGuidLocal =
      (true, { data1 := 0x8BE4DF61, data2 := 0x93CA, data3 := 0x11D2,
               data4 := [0xAA, 0x0D, 0x00, 0xE0, 0x98, 0x03, 0x2B, 0x8C] }) := by
  have h := parse_guid_wellformed "8BE4DF61".data "93CA".data "11D2".data "AA0D".data
    "00E098032B8C".data initGuidLocal (by decide) (by decide) (by decide) (by decide)
    (by decide) (by decide) (by decide) (by decide) (by decide) (by decide) (by decide)
  have heq : "8BE4DF61-93CA-11D2-AA0D-00E098032B8C".data =
      "8BE4DF61".data ++ ('-' :: ("93CA".data ++ ('-' :: ("11D2".data ++
        ('-' :: ("AA0D".data ++ ('-' :: "00E098032B8C".data))))))) := by decide
  rw [heq, h]
  decide

/-- Claim C2: for every integer format (required byte counts 1, 2, 4 and 8)
and every byte buffer at least that long, `format_as_uint` succeeds and
returns the decimal rendering (`Nat.repr`) of the little-endian value of
exactly the first `required_size` bytes, byte `i` contributing
`bytes[i] * 2^(8*i)`; trailing bytes are ignored. -/
theorem format_as_uint_correct (format : OutputFormat) (rs : Nat)
    (hf : (format = OutputFormat.uint8 ∧ rs = 1) ∨ (format = OutputFormat.uint16 ∧ rs = 2) ∨
          (format = OutputFormat.uint32 ∧ rs = 4) ∨ (format = OutputFormat.uint64 ∧ rs = 8))
    (data : List Nat) (datasize : Nat) (hlen : data.length = datasize)
    (hds : rs ≤ datasize) (hb : ∀ b ∈ data, b < 256) :
    format_as_uint data datasize format =
      some (stringBytes (Nat.repr
        (∑ i in Finset.range rs, data.getD i 0 * 2 ^ (8 * i)))) := by
  have hbi : ∀ i, i < rs → data.getD i 0 < 256 := by
    intro i hi
    exact hb _ (getD_mem_of_lt data i (by omega))
  rcases hf with ⟨hf, hrs⟩ | ⟨hf, hrs⟩ | ⟨hf, hrs⟩ | ⟨hf, hrs⟩ <;> subst hf <;> subst hrs <;>
    (simp only [format_as_uint]
     rw [if_neg (by omega)]
     rw [fold_lor_eq_sum data _ hbi])

/-- Witness for C2: the specification's concrete vector
`[0x2A, 0x00, 0x00, 0x00]` with `UInt32` renders as `"42"`. -/
theorem format_as_uint_correct_witness :
    format_as_uint [0x2A, 0x00, 0x00, 0x00] 4 OutputFormat.uint32 =
      some (stringBytes "42") := by
  rw [format_as_uint_correct OutputFormat.uint32 4 (by simp) [0x2A, 0x00, 0x00, 0x00] 4
    (by decide) (by decide) (by decide)]
  decide

/-- Counterexample to C3 as stated: a 3-byte blob fetched with `--uint32`
makes the command fail with the `GRUB_ERR_OUT_OF_MEMORY` error kind — the
very same error value used for allocation failure — not a `TooShort` kind
distinct from it (the code has no such kind; both `NULL` returns of
`format_as_uint` funnel into the single `grub_error (GRUB_ERR_OUT_OF_MEMORY,
"failed to format output")` call). -/
theorem too_short_error_is_out_of_memory :
    (grub_cmd_efivar ["--uint32", "X"] ⟨0, some [1, 2, 3], 3⟩).ret =
      Except.error CmdErr.outOfMemory := by decide

/-- Claim C3 (amended: the failure is reported with the out-of-memory error
kind, since the code does not distinguish a too-short blob from an
allocation failure): for every integer format and every successfully fetched
non-empty blob shorter than the format's required byte count, the command
fails after the fetch with `GRUB_ERR_OUT_OF_MEMORY`, the fetched blob having
been released exactly once and no output string released. -/
theorem too_short_fails_after_release (args : List String) (fr : FetchResult)
    (ap : ArgParse) (rs : Nat)
    (hap : parseArgs args = Except.ok ap)
    (hfetch : (grub_cmd_efivar args fr).fetched = true)
    (hf : (ap.format = OutputFormat.uint8 ∧ rs = 1) ∨ (ap.format = OutputFormat.uint16 ∧ rs = 2) ∨
          (ap.format = OutputFormat.uint32 ∧ rs = 4) ∨ (ap.format = OutputFormat.uint64 ∧ rs = 8))
    (herr : fr.err = 0) (hdata : fr.data ≠ none) (hsize : fr.datasize ≠ 0)
    (hlt : fr.datasize < rs) :
    (grub_cmd_efivar args fr).ret = Except.error CmdErr.outOfMemory ∧
    (grub_cmd_efivar args fr).freedData = 1 ∧
    (grub_cmd_efivar args fr).freedOutput = 0 := by
  obtain ⟨ap2, guid, hap2, hg, heq⟩ := fetched_imp args fr hfetch
  rw [hap] at hap2
  have hap3 : ap = ap2 := Except.ok.inj hap2
  subst hap3
  rw [heq, execPhase_too_short ap guid fr rs hf herr hdata hsize hlt]
  exact ⟨rfl, rfl, rfl⟩

/-- Witness for C3 (amended): a 3-byte blob with `--uint32` fails with the
out-of-memory kind after releasing the blob. -/
theorem too_short_fails_after_release_witness :
    (grub_cmd_efivar ["--uint32", "X"] ⟨0, some [1, 2, 3], 3⟩).ret =
      Except.error CmdErr.outOfMemory ∧
    (grub_cmd_efivar ["--uint32", "X"] ⟨0, some [1, 2, 3], 3⟩).freedData = 1 ∧
    (grub_cmd_efivar ["--uint32", "X"] ⟨0, some [1, 2, 3], 3⟩).freedOutput = 0 :=
  too_short_fails_after_release ["--uint32", "X"] ⟨0, some [1, 2, 3], 3⟩
    ⟨none, OutputFormat.uint32, "X", none⟩ 4 (by decide) (by decide)
    (Or.inr (Or.inr (Or.inl ⟨rfl, rfl⟩))) rfl (by decide) (by decide) (by decide)

/-- Claim C4: `utf16le_to_utf8` scans its input two bytes at a time as
little-endian 16-bit code units, stops at the first zero unit or when fewer
than 2 bytes remain, and emits per unit `c` one byte `c` below 0x80, the two
bytes `0xC0 + c/64, 0x80 + c%64` below 0x800, and otherwise the three bytes
`0xE0 + c/4096, 0x80 + (c/64)%64, 0x80 + c%64` — surrogate-range units
included (`utf16le_to_utf8_spec` is that description verbatim).  In the
model allocation always succeeds, matching "fails only on allocation
failure". -/
theorem utf16le_to_utf8_correct (data : List Nat) (datasize : Nat)
    (hb : ∀ b ∈ data, b < 256) :
    utf16le_to_utf8 data datasize = utf16le_to_utf8_spec data datasize := by
  unfold utf16le_to_utf8 utf16le_to_utf8_spec
  exact utf16le_go_eq_spec (data.take datasize)
    (fun b hbm => hb b (List.take_subset _ _ hbm))

/-- Witness for C4: the specification's concrete vector
`[0x41, 0x00, 0x42, 0x00, 0x00, 0x00]` renders as `"AB"`. -/
theorem utf16le_to_utf8_correct_witness :
    utf16le_to_utf8 [0x41, 0x00, 0x42, 0x00, 0x00, 0x00] 6 = stringBytes "AB" := by
  rw [utf16le_to_utf8_correct [0x41, 0x00, 0x42, 0x00, 0x00, 0x00] 6 (by decide)]
  decide

/-- Counterexample to C5 as stated: `parse_guid` does NOT leave the
destination unmodified on failure.  On GUID text whose first four groups are
valid hex but whose last character is not, the groups parsed before the
failure have already been written through the pointer: starting from a
destination with `data1 = 99`, the failed parse leaves `data1 = 1`. -/
theorem parse_guid_partial_write :
    (parse_guid "00000001-0000-0000-0000-00000000000Z".data
      { data1 := 99, data2 := 99, data3 := 99, data4 := List.replicate 8 7 }).1 = false ∧
    (parse_guid "00000001-0000-0000-0000-00000000000Z".data
      { data1 := 99, data2 := 99, data3 := 99, data4 := List.replicate 8 7 }).2 ≠
      { data1 := 99, data2 := 99, data3 := 99, data4 := List.replicate 8 7 } := by
  decide

/-- Claim C5 (amended: the destination may be partially written before the
failure is detected — the caller never reads it on failure): for every
malformed GUID argument (wrong length, dash in the wrong place, or a non-hex
character in a hex run, i.e. `guidTextLayout` false), `parse_guid` reports
failure, and the command rejects the request with the invalid-GUID error and
no fetch attempted (the outcome records no fetch, no print, no store write,
no free). -/
theorem malformed_guid_rejected :
    (∀ (s : List Char) (g : GrubGuid), guidTextLayout s = false →
      (parse_guid s g).1 = false) ∧
    (∀ (args : List String) (fr : FetchResult) (ap : ArgParse) (gs : String),
      parseArgs args = Except.ok ap → ap.guid_str = some gs →
      guidTextLayout gs.data = false →
      grub_cmd_efivar args fr =
        { emptyOutcome with ret := Except.error CmdErr.invalidGuid }) :=
  ⟨parse_guid_fail, cmd_invalidGuid⟩

/-- Witness for C5 (amended): a GUID argument whose final character is not a
hex digit is rejected with the invalid-GUID error and no fetch. -/
theorem malformed_guid_rejected_witness :
    (parse_guid "8BE4DF61-93CA-11D2-AA0D-00E098032B8X".data initGuidLocal).1 = false ∧
    grub_cmd_efivar ["V", "8BE4DF61-93CA-11D2-AA0D-00E098032B8X"] ⟨0, none, 0⟩ =
      { emptyOutcome with ret := Except.error CmdErr.invalidGuid } :=
  ⟨malformed_guid_rejected.1 "8BE4DF61-93CA-11D2-AA0D-00E098032B8X".data initGuidLocal
     (by decide),
   malformed_guid_rejected.2 ["V", "8BE4DF61-93CA-11D2-AA0D-00E098032B8X"] ⟨0, none, 0⟩
     ⟨none, OutputFormat.string, "V", some "8BE4DF61-93CA-11D2-AA0D-00E098032B8X"⟩
     "8BE4DF61-93CA-11D2-AA0D-00E098032B8X" (by decide) rfl (by decide)⟩

/-- Claim C6: the argument list is parsed positionally left to right exactly
as the specification's grammar `interpretSpec` describes — a leading `--set`
consumes itself and the next token as `set_env` (missing-argument error when
fewer than 2 tokens remain after it), then an optional format flag from
`--string`/`--uint8`/`--uint16`/`--uint32`/`--uint64` (default `String`, no
token consumed when none matches), then the mandatory name (missing-argument
error if absent); `["--uint16", "MyVar"]` yields format `UInt16`, name
`"MyVar"`, no `set_env`, and the default GUID is what reaches the fetch. -/
theorem parseArgs_matches_grammar :
    (∀ args : List String, parseArgs args = interpretSpec args) ∧
    parseArgs ["--uint16", "MyVar"] =
      Except.ok ⟨none, OutputFormat.uint16, "MyVar", none⟩ ∧
    (grub_cmd_efivar ["--uint16", "MyVar"] ⟨0, none, 0⟩).fetchedGuid =
      some GRUB_EFI_GLOBAL_VARIABLE_GUID :=
  ⟨parseArgs_eq_interpretSpec_pre, by decide, by decide⟩

/-- Claim C7: whenever the fetch collaborator succeeds but reports zero data
length or a null data pointer, the command prints one empty line, invokes
neither the text transcoder nor the integer extractor, and returns success,
for every selected format. -/
theorem empty_blob_success (args : List String) (fr : FetchResult)
    (hfetch : (grub_cmd_efivar args fr).fetched = true)
    (herr : fr.err = 0) (hempty : fr.data = none ∨ fr.datasize = 0) :
    (grub_cmd_efivar args fr).ret = Except.ok () ∧
    (grub_cmd_efivar args fr).printed = [stringBytes "\n"] ∧
    (grub_cmd_efivar args fr).calledTranscoder = false ∧
    (grub_cmd_efivar args fr).calledExtractor = false := by
  obtain ⟨ap, guid, hap, hg, heq⟩ := fetched_imp args fr hfetch
  rw [heq, execPhase_empty ap guid fr herr hempty]
  exact ⟨rfl, rfl, rfl, rfl⟩

/-- Witness for C7: a fetch reporting a null pointer with a `--uint64`
request prints an empty line and succeeds without formatting. -/
theorem empty_blob_success_witness :
    (grub_cmd_efivar ["--uint64", "MyVar"] ⟨0, none, 0⟩).ret = Except.ok () ∧
    (grub_cmd_efivar ["--uint64", "MyVar"] ⟨0, none, 0⟩).printed = [stringBytes "\n"] ∧
    (grub_cmd_efivar ["--uint64", "MyVar"] ⟨0, none, 0⟩).calledTranscoder = false ∧
    (grub_cmd_efivar ["--uint64", "MyVar"] ⟨0, none, 0⟩).calledExtractor = false :=
  empty_blob_success ["--uint64", "MyVar"] ⟨0, none, 0⟩ (by decide) rfl (Or.inl rfl)

/-- Claim C8 at its failing input (code bug): when the fetch succeeds with a
non-null (zero-length) buffer and `datasize = 0`, the command takes the
empty-blob early-success path and returns WITHOUT freeing the fetched blob
(`freedData = 0`), contradicting the release-exactly-once invariant the
specification states for every control path after a successful fetch. -/
theorem empty_blob_leaks_blob :
    (grub_cmd_efivar ["SomeVar"] ⟨0, some [], 0⟩).ret = Except.ok () ∧
    (grub_cmd_efivar ["SomeVar"] ⟨0, some [], 0⟩).fetched = true ∧
    (grub_cmd_efivar ["SomeVar"] ⟨0, some [], 0⟩).printed = [stringBytes "\n"] ∧
    (grub_cmd_efivar ["SomeVar"] ⟨0, some [], 0⟩).freedData = 0 ∧
    ((⟨0, some [], 0⟩ : FetchResult).data ≠ none) := by
  decide

set_option maxRecDepth 8192 in
/-- Claim C9 (modelled from the spec, `render_hex` being absent from the
source file): `render_hex` emits each byte as two lowercase hex digits with
bytes separated by a single space and no trailing separator, empty input
yielding empty text; each byte's digit pair is a faithful standalone
rendering, round-tripping through the source's hex parser
`parse_hex_bytes`. -/
theorem render_hex_correct :
    render_hex [] = [] ∧
    (∀ (b : Nat) (bs : List Nat), render_hex (b :: bs) =
      hexPair b ++ (if bs = [] then [] else ' ' :: render_hex bs)) ∧
    (∀ b : Nat, b < 256 → (hexPair b).length = 2 ∧
      (∀ c ∈ hexPair b, ('0'.toNat ≤ c.toNat ∧ c.toNat ≤ '9'.toNat) ∨
        ('a'.toNat ≤ c.toNat ∧ c.toNat ≤ 'f'.toNat)) ∧
      parse_hex_bytes (hexPair b) 1 = some [b]) := by
  refine ⟨rfl, ?_, ?_⟩
  · intro b bs
    cases bs with
    | nil => simp [render_hex]
    | cons x xs => rfl
  · decide

/-- Witness for C9: the byte `0xAB` renders as the two lowercase hex digits
`"ab"` and parses back to itself. -/
theorem render_hex_correct_witness :
    (hexPair 0xAB).length = 2 ∧ parse_hex_bytes (hexPair 0xAB) 1 = some [0xAB] := by
  obtain ⟨h1, h2, h3⟩ := render_hex_correct.2.2 0xAB (by decide)
  exact ⟨h1, h3⟩

/-- Claim C10: when `--set <env>` is supplied and the fetch succeeds with an
empty or null blob, the command prints a newline, returns success, and
writes nothing to the environment-variable store. -/
theorem set_empty_blob_no_store_write (args : List String) (fr : FetchResult)
    (ap : ArgParse) (env : String)
    (_hap : parseArgs args = Except.ok ap) (_hset : ap.set_env = some env)
    (hfetch : (grub_cmd_efivar args fr).fetched = true)
    (herr : fr.err = 0) (hempty : fr.data = none ∨ fr.datasize = 0) :
    (grub_cmd_efivar args fr).ret = Except.ok () ∧
    (grub_cmd_efivar args fr).printed = [stringBytes "\n"] ∧
    (grub_cmd_efivar args fr).envSets = [] := by
  obtain ⟨ap2, guid, hap2, hg, heq⟩ := fetched_imp args fr hfetch
  rw [heq, execPhase_empty ap2 guid fr herr hempty]
  exact ⟨rfl, rfl, rfl⟩

/-- Witness for C10: `--set E V` with a null-blob fetch prints a newline
and performs no store write. -/
theorem set_empty_blob_no_store_write_witness :
    (grub_cmd_efivar ["--set", "E", "V"] ⟨0, none, 0⟩).ret = Except.ok () ∧
    (grub_cmd_efivar ["--set", "E", "V"] ⟨0, none, 0⟩).printed = [stringBytes "\n"] ∧
    (grub_cmd_efivar ["--set", "E", "V"] ⟨0, none, 0⟩).envSets = [] :=
  set_empty_blob_no_store_write ["--set", "E", "V"] ⟨0, none, 0⟩
    ⟨some "E", OutputFormat.string, "V", none⟩ "E" (by decide) rfl (by decide) rfl
    (Or.inl rfl)


end Efivar
